import Mathlib

/-!
Verification of the dynarmic arm64 backend core: a shallow embedding of
`src/dynarmic/backend/arm64/address_space.cpp` and
`src/dynarmic/backend/arm64/emit_arm64_a32_coprocessor.cpp`, together with
theorems settling the specification's claims about the code cache, the block
linker, the fastmem fault-recovery callback and the coprocessor dispatch
emitter.

Conventions of the embedding:
* `LocationDescriptor` and `CodePtr` are modelled as `Nat`; code pointers are
  measured as byte offsets from the arena base (`mem.ptr()` is offset 0), so
  the arena write cursor is a plain `Nat` as well.
* `tsl::robin_map` / `tsl::robin_set` members are modelled as association
  lists / lists with the lookup, erase and insert functions below; `std::map`
  (the ordered `reverse_block_entries`) is an association list kept sorted by
  key, and `std::map::upper_bound` followed by the decrement in
  `ReverseGetEntryPoint` is modelled by `mapLastLE`.
* Fatal assertions (`ASSERT`, `ASSERT_FALSE`, `ASSERT_MSG`, `UNREACHABLE`)
  are modelled with `Except String` error results.
-/

namespace Dynarmic

abbrev LocationDescriptor := Nat

abbrev CodePtr := Nat

/-- Lookup in an association list with `Nat` keys (models `robin_map::find`
and `std::map::find`). -/
def alookup {β : Type} : List (Nat × β) → Nat → Option β
  | [], _ => Option.none
  | x :: xs, k => if x.1 = k then some x.2 else alookup xs k

/-- Erase the (first) entry with the given key (models `map.erase(iter)`
after a successful `find`). -/
def aerase {β : Type} : List (Nat × β) → Nat → List (Nat × β)
  | [], _ => []
  | x :: xs, k => if x.1 = k then xs else x :: aerase xs k

/-- Insert-or-assign for an association list (models `map[k] = v` on a key
that may or may not be present). -/
def ainsertReplace {β : Type} : List (Nat × β) → Nat → β → List (Nat × β)
  | [], k, v => [(k, v)]
  | x :: xs, k, v => if x.1 = k then (k, v) :: xs else x :: ainsertReplace xs k v

/-- Insertion into a key-sorted association list (models `std::map::emplace`
on an absent key, which keeps the map ordered by key). -/
def insertSorted {β : Type} : List (Nat × β) → Nat → β → List (Nat × β)
  | [], k, v => [(k, v)]
  | x :: xs, k, v => if k < x.1 then (k, v) :: x :: xs else x :: insertSorted xs k v

/-- On a key-sorted association list, the entry just before
`std::map::upper_bound k`: the last entry of the longest prefix whose keys
are `≤ k`, or `none` when `upper_bound` is already `begin()`. -/
def mapLastLE {β : Type} : List (Nat × β) → Nat → Option (Nat × β)
  | [], _ => Option.none
  | x :: xs, k => if x.1 ≤ k then some ((mapLastLE xs k).getD x) else Option.none

/-! ## Data model (from `EmittedBlockInfo` and the cache state of
`AddressSpace` in `address_space.cpp`) -/

/-- The prelude helpers named by relocation slots (`LinkTarget` enumeration). -/
inductive LinkTarget
  | ReturnToDispatcher
  | ReturnFromRunCode
  | ReadMemory8
  | ReadMemory16
  | ReadMemory32
  | ReadMemory64
  | ReadMemory128
  | WrappedReadMemory8
  | WrappedReadMemory16
  | WrappedReadMemory32
  | WrappedReadMemory64
  | WrappedReadMemory128
  | ExclusiveReadMemory8
  | ExclusiveReadMemory16
  | ExclusiveReadMemory32
  | ExclusiveReadMemory64
  | ExclusiveReadMemory128
  | WriteMemory8
  | WriteMemory16
  | WriteMemory32
  | WriteMemory64
  | WriteMemory128
  | WrappedWriteMemory8
  | WrappedWriteMemory16
  | WrappedWriteMemory32
  | WrappedWriteMemory64
  | WrappedWriteMemory128
  | ExclusiveWriteMemory8
  | ExclusiveWriteMemory16
  | ExclusiveWriteMemory32
  | ExclusiveWriteMemory64
  | ExclusiveWriteMemory128
  | CallSVC
  | ExceptionRaised
  | InstructionSynchronizationBarrierRaised
  | InstructionCacheOperationRaised
  | DataCacheOperationRaised
  | GetCNTPCT
  | AddTicks
  | GetTicksRemaining
deriving DecidableEq

/-- Inter-block branch slot kinds. The C++ `enum class BlockRelocationType`
declares `Branch` and `MoveToScratch1`; since a C++ enum object can hold any
value of its underlying integer type, the out-of-range values that the
`default: ASSERT_FALSE` arm of `LinkBlockLinks` guards against are modelled
by the `invalidType` constructor. -/
inductive BlockRelocationType
  | Branch
  | MoveToScratch1
  | invalidType (n : Nat)
deriving DecidableEq

/-- One entry of `EmittedBlockInfo::block_relocations` lists
(`struct BlockRelocation { ptr_offset; type; }`). -/
structure BlockRelocation where
  ptr_offset : Nat
  type : BlockRelocationType
deriving DecidableEq

/-- The architecture-specific fault-recovery descriptor returned by the
fastmem callback; the cache never inspects it, so it is opaque here. -/
abbrev FakeCall := Nat

/-- The do-not-fastmem marker. The cache only uses `std::get<0>(marker)`
(its location descriptor); the remaining components are collapsed into one
opaque `Nat`. -/
abbrev DoNotFastmemMarker := LocationDescriptor × Nat

/-- One value of `EmittedBlockInfo::fastmem_patch_info` (fields `fc`,
`recompile`, `marker`). -/
structure FastmemPatchInfoEntry where
  fc : FakeCall
  recompile : Bool
  marker : DoNotFastmemMarker
deriving DecidableEq

/-- `EmittedBlockInfo`, as produced by the emitter and stored by the cache.
The three maps are association lists keyed by offset / descriptor. -/
structure EmittedBlockInfo where
  entry_point : CodePtr
  size : Nat
  relocations : List (Nat × LinkTarget)
  block_relocations : List (LocationDescriptor × List BlockRelocation)
  fastmem_patch_info : List (Nat × FastmemPatchInfoEntry)
deriving DecidableEq

/-- The mutable state of `AddressSpace` (plus the fastmem manager's marker
set and the relevant configuration). Code pointers are byte offsets from the
arena base, so `cursor` both is `code.ptr()` and measures the bytes already
used; `reverse_block_entries` is kept sorted by key as `std::map` is. -/
structure AddressSpaceState where
  multi_block : Bool
  code_cache_size : Nat
  end_of_prelude : Nat
  cursor : Nat
  block_entries : List (LocationDescriptor × CodePtr)
  reverse_block_entries : List (CodePtr × LocationDescriptor)
  block_infos : List (CodePtr × EmittedBlockInfo)
  block_references : List (LocationDescriptor × List CodePtr)
  do_not_fastmem : List DoNotFastmemMarker
deriving DecidableEq

/-- `AddressSpace::Get`: pure lookup in `block_entries` (a null `CodePtr`
becomes `Option.none`). -/
def AddressSpaceState.get (s : AddressSpaceState) (descriptor : LocationDescriptor) :
    Option CodePtr :=
  alookup s.block_entries descriptor

/-- `AddressSpace::ReverseGetLocation`: `upper_bound(host_pc)` on the
ordered `reverse_block_entries`, decremented when possible. -/
def AddressSpaceState.reverseGetLocation (s : AddressSpaceState) (host_pc : CodePtr) :
    Option LocationDescriptor :=
  (mapLastLE s.reverse_block_entries host_pc).map Prod.snd

/-- `AddressSpace::ReverseGetEntryPoint`: `upper_bound(host_pc)` on the
ordered `reverse_block_entries`, decremented when possible. -/
def AddressSpaceState.reverseGetEntryPoint (s : AddressSpaceState) (host_pc : CodePtr) :
    Option CodePtr :=
  (mapLastLE s.reverse_block_entries host_pc).map Prod.fst

/-- `AddressSpace::GetRemainingSize`:
`code_cache_size - (code.ptr() - mem.ptr())` with the arena base at 0. -/
def AddressSpaceState.getRemainingSize (s : AddressSpaceState) : Nat :=
  s.code_cache_size - s.cursor

/-- `AddressSpace::IsNearlyFull`: remaining arena below 1 MiB. -/
def AddressSpaceState.isNearlyFull (s : AddressSpaceState) : Bool :=
  s.getRemainingSize < 1024 * 1024

/-- `AddressSpace::ClearCache`: clear the four maps and reset the write
cursor to `end_of_prelude`. The body does not touch the fastmem manager. -/
def AddressSpaceState.clearCache (s : AddressSpaceState) : AddressSpaceState :=
  { s with
    block_entries := []
    reverse_block_entries := []
    block_infos := []
    block_references := []
    cursor := s.end_of_prelude }

/-- Modelled from the spec: `FastmemManager::MarkDoNotFastmem` is declared
outside this excerpt; per §4.3 of the spec it records the marker in the
do-not-fastmem set (markers form a set, so recording is idempotent). -/
def AddressSpaceState.markDoNotFastmem (s : AddressSpaceState) (marker : DoNotFastmemMarker) :
    AddressSpaceState :=
  { s with
    do_not_fastmem :=
      if marker ∈ s.do_not_fastmem then s.do_not_fastmem else marker :: s.do_not_fastmem }

/-- `AddressSpace::RelinkForDescriptor` at cache-state level. The loop
iterates `block_references[target_descriptor]` — `robin_map::operator[]`
value-initialises an empty set when the key is absent, which is the only
effect this function has on the cache maps. The body re-patches the
referencing blocks' code bytes via `LinkBlockLinks` and flushes the
instruction cache over them; code bytes live outside the cache maps and the
byte-level patch policy is modelled separately by the pure `LinkBlockLinks`
function below. -/
def AddressSpaceState.relinkForDescriptor (s : AddressSpaceState)
    (target_descriptor : LocationDescriptor) (_target_ptr : Option CodePtr) :
    AddressSpaceState :=
  { s with
    block_references :=
      if (alookup s.block_references target_descriptor).isSome then s.block_references
      else (target_descriptor, []) :: s.block_references }

/-- Events recorded while `InvalidateBasicBlocks` runs, used to state its
temporal ordering contract. -/
inductive CacheEvent
  | relinkEvt (descriptor : LocationDescriptor) (target_ptr : Option CodePtr)
  | eraseEvt (descriptor : LocationDescriptor)
deriving DecidableEq

/-- The descriptor an event names. -/
def CacheEvent.descr : CacheEvent → LocationDescriptor
  | .relinkEvt d _ => d
  | .eraseEvt d => d

/-- One iteration of the loop in `AddressSpace::InvalidateBasicBlocks`:
skip descriptors absent from `block_entries`; otherwise
`RelinkForDescriptor(descriptor, nullptr)` and *then* erase the entry.
The second component records the actions taken, in order. -/
def invalidateStep (acc : AddressSpaceState × List CacheEvent) (descriptor : LocationDescriptor) :
    AddressSpaceState × List CacheEvent :=
  match alookup acc.1.block_entries descriptor with
  | Option.none => acc
  | some _ =>
    let s1 := acc.1.relinkForDescriptor descriptor Option.none
    let s2 := { s1 with block_entries := aerase s1.block_entries descriptor }
    (s2, acc.2 ++ [CacheEvent.relinkEvt descriptor Option.none, CacheEvent.eraseEvt descriptor])

/-- `AddressSpace::InvalidateBasicBlocks` with its event trace. The
`robin_set` argument is modelled as a duplicate-free list in iteration
order; the surrounding `mem.unprotect()`/`mem.protect()` pair toggles page
protection only and does not affect the cache maps. -/
def invalidateBasicBlocksTraced (s : AddressSpaceState)
    (descriptors : List LocationDescriptor) : AddressSpaceState × List CacheEvent :=
  descriptors.foldl invalidateStep (s, [])

/-- `AddressSpace::InvalidateBasicBlocks` (state part). -/
def AddressSpaceState.invalidateBasicBlocks (s : AddressSpaceState)
    (descriptors : List LocationDescriptor) : AddressSpaceState :=
  (invalidateBasicBlocksTraced s descriptors).1

/-- Result of `AddressSpace::FastmemCallback`: either the recovery
descriptor together with the (possibly updated) cache state, or the fatal
path, which prints a diagnostic naming the faulting host PC
(`"dynarmic: Segfault happened within JITted code at host_pc = ..."`) and
aborts via `ASSERT_FALSE("segfault")`. -/
inductive FastmemCallbackResult
  | ok (fc : FakeCall) (s : AddressSpaceState)
  | fatalSegfault (host_pc : Nat)
deriving DecidableEq

/-- `AddressSpace::FastmemCallback`: localise the faulting host PC to a
recorded fastmem patch site; on the recompile flag, mark the site
do-not-fastmem and invalidate the block of the marker's descriptor before
returning the recorded fake call. Any failure to localise takes the fatal
`fail:` path. -/
def AddressSpaceState.fastmemCallback (s : AddressSpaceState) (host_pc : Nat) :
    FastmemCallbackResult :=
  match s.reverseGetEntryPoint host_pc with
  | Option.none => FastmemCallbackResult.fatalSegfault host_pc
  | some entry_point =>
    match alookup s.block_infos entry_point with
    | Option.none => FastmemCallbackResult.fatalSegfault host_pc
    | some block_info =>
      match alookup block_info.fastmem_patch_info (host_pc - entry_point) with
      | Option.none => FastmemCallbackResult.fatalSegfault host_pc
      | some patch_entry =>
        if patch_entry.recompile then
          FastmemCallbackResult.ok patch_entry.fc
            ((s.markDoNotFastmem patch_entry.marker).invalidateBasicBlocks
              [patch_entry.marker.1])
        else
          FastmemCallbackResult.ok patch_entry.fc s

/-! ## The block-link patch engine (`LinkBlockLinks`) -/

/-- One instruction written into a block-relocation slot. -/
inductive PatchWrite
  | branch (addr target : CodePtr)
  | nop (addr : CodePtr)
  | movToScratch1 (addr target : CodePtr)
deriving DecidableEq

/-- `LinkBlockLinks(entry_point, target_ptr, list, return_to_dispatcher)`:
for each `(ptr_offset, type)` compute the instruction written at
`entry_point + ptr_offset` (`B target` / `NOP` for `Branch`,
`ADRL Xscratch1, target-or-dispatcher` for `MoveToScratch1`); an
out-of-range type hits `ASSERT_FALSE("Invalid BlockRelocationType")`. -/
def LinkBlockLinks (entry_point : CodePtr) (target_ptr : Option CodePtr)
    (block_relocations_list : List BlockRelocation) (return_to_dispatcher : CodePtr) :
    Except String (List PatchWrite) :=
  match block_relocations_list with
  | [] => Except.ok []
  | r :: rest =>
    match (match r.type with
        | BlockRelocationType.Branch =>
          match target_ptr with
          | some t => Except.ok (PatchWrite.branch (entry_point + r.ptr_offset) t)
          | Option.none => Except.ok (PatchWrite.nop (entry_point + r.ptr_offset))
        | BlockRelocationType.MoveToScratch1 =>
          match target_ptr with
          | some t => Except.ok (PatchWrite.movToScratch1 (entry_point + r.ptr_offset) t)
          | Option.none =>
            Except.ok (PatchWrite.movToScratch1 (entry_point + r.ptr_offset) return_to_dispatcher)
        | BlockRelocationType.invalidType _ =>
          (Except.error "Invalid BlockRelocationType" : Except String PatchWrite)) with
    | Except.error e => Except.error e
    | Except.ok w =>
      match LinkBlockLinks entry_point target_ptr rest return_to_dispatcher with
      | Except.error e => Except.error e
      | Except.ok ws => Except.ok (w :: ws)

/-! ## Compilation pipeline (`Compile`, `Emit`, `Link`, `GetOrEmit`) -/

/-- The IR terminal, a recursively nested sum (from `IR::Term`). -/
inductive Terminal
  | Invalid
  | ReturnToDispatch
  | LinkBlock (next : LocationDescriptor)
  | LinkBlockFast (next : LocationDescriptor)
  | PopRSBHint
  | FastDispatchHint
  | If (then_branch else_branch : Terminal)
  | CheckBit (then_branch else_branch : Terminal)
  | CheckHalt (else_branch : Terminal)
deriving DecidableEq

/-- An IR block as the cache consumes it: its starting location descriptor
and its terminal. -/
structure IRBlock where
  location : LocationDescriptor
  terminal : Terminal
deriving DecidableEq

/-- `AppendNextBlocksToList`: collect the successors a terminal queues, in
push order; an `Invalid` terminal is `ASSERT_FALSE("Invalid terminal")`. -/
def appendNextBlocksToList : Terminal → Except String (List LocationDescriptor)
  | Terminal.Invalid => Except.error "Invalid terminal"
  | Terminal.ReturnToDispatch => Except.ok []
  | Terminal.LinkBlock n => Except.ok [n]
  | Terminal.LinkBlockFast n => Except.ok [n]
  | Terminal.PopRSBHint => Except.ok []
  | Terminal.FastDispatchHint => Except.ok []
  | Terminal.If t e =>
    match appendNextBlocksToList t with
    | Except.error m => Except.error m
    | Except.ok a =>
      match appendNextBlocksToList e with
      | Except.error m => Except.error m
      | Except.ok b => Except.ok (a ++ b)
  | Terminal.CheckBit t e =>
    match appendNextBlocksToList t with
    | Except.error m => Except.error m
    | Except.ok a =>
      match appendNextBlocksToList e with
      | Except.error m => Except.error m
      | Except.ok b => Except.ok (a ++ b)
  | Terminal.CheckHalt e => appendNextBlocksToList e

/-- The external collaborators `Compile` consumes: `GenerateIR` (the IR
producer) and `EmitArm64` (the host-code emitter, which writes at the
current cursor, advances it, and returns the block's tables). -/
structure ExternalEnv where
  genIR : LocationDescriptor → IRBlock
  emitArm64 : Nat → IRBlock → EmittedBlockInfo × Nat

/-- One step of the `block_references[target].emplace(entry_point)` loop in
`AddressSpace::Link`. -/
def linkRefsStep (entry_point : CodePtr) (refs : List (LocationDescriptor × List CodePtr))
    (target : LocationDescriptor) : List (LocationDescriptor × List CodePtr) :=
  let prev := (alookup refs target).getD []
  ainsertReplace refs target (if entry_point ∈ prev then prev else prev ++ [entry_point])

/-- `AddressSpace::Link` at cache-state level: the prelude-helper
relocations overwrite code bytes only; for every `block_relocations` target
the block is recorded in `block_references` and the slots are patched via
`LinkBlockLinks` (byte level, modelled by the pure function above). -/
def AddressSpaceState.link (s : AddressSpaceState) (block_info : EmittedBlockInfo) :
    AddressSpaceState :=
  { s with
    block_references :=
      block_info.block_relocations.foldl
        (fun refs pr => linkRefsStep block_info.entry_point refs pr.1) s.block_references }

/-- `AddressSpace::Emit`: run the external emitter at the cursor, insert the
forward, reverse and info mappings (each `ASSERT`ed to be a fresh key), then
`Link` and `RelinkForDescriptor(location, entry_point)`.
(`RegisterNewBasicBlock` only notifies an external registry.) -/
def AddressSpaceState.emit (s : AddressSpaceState) (env : ExternalEnv) (block : IRBlock) :
    Except String (EmittedBlockInfo × AddressSpaceState) :=
  let block_info := (env.emitArm64 s.cursor block).1
  let cursor1 := (env.emitArm64 s.cursor block).2
  if (alookup s.block_entries block.location).isSome then
    Except.error "duplicate entry in block_entries"
  else if (alookup s.reverse_block_entries block_info.entry_point).isSome then
    Except.error "duplicate entry in reverse_block_entries"
  else if (alookup s.block_infos block_info.entry_point).isSome then
    Except.error "duplicate entry in block_infos"
  else
    Except.ok (block_info,
      (({ s with
          cursor := cursor1
          block_entries := (block.location, block_info.entry_point) :: s.block_entries
          reverse_block_entries :=
            insertSorted s.reverse_block_entries block_info.entry_point block.location
          block_infos := (block_info.entry_point, block_info) :: s.block_infos
        } : AddressSpaceState).link block_info).relinkForDescriptor block.location
        (some block_info.entry_point))

/-- The `do_block` lambda of `AddressSpace::Compile`: generate IR, queue the
terminal's successors, emit, and return the new entry point. -/
def doBlock (env : ExternalEnv) (s : AddressSpaceState) (next : List LocationDescriptor)
    (descriptor : LocationDescriptor) :
    Except String (CodePtr × AddressSpaceState × List LocationDescriptor) :=
  let ir_block := env.genIR descriptor
  match appendNextBlocksToList ir_block.terminal with
  | Except.error e => Except.error e
  | Except.ok app =>
    match s.emit env ir_block with
    | Except.error e => Except.error e
    | Except.ok (block_info, s1) => Except.ok (block_info.entry_point, s1, next ++ app)

/-- The multi-block worklist loop of `AddressSpace::Compile`
(`while (!next.empty() && !IsNearlyFull()) { pop; if (!Get(n)) do_block(n); }`).
The `fuel` bound is a modelling artifact: the C++ loop has no structural
termination measure, so runs that would iterate longer than `fuel` are
reported as an error rather than silently truncated. -/
def drainNext (env : ExternalEnv) :
    Nat → AddressSpaceState → List LocationDescriptor → Except String AddressSpaceState
  | _, s, [] => Except.ok s
  | 0, s, _ :: _ =>
    if s.isNearlyFull then Except.ok s else Except.error "compilation fuel exhausted"
  | Nat.succ fuel, s, n :: rest =>
    if s.isNearlyFull then Except.ok s
    else if (s.get n).isSome then drainNext env fuel s rest
    else
      match doBlock env s rest n with
      | Except.error e => Except.error e
      | Except.ok (_, s1, next1) => drainNext env fuel s1 next1

/-- `AddressSpace::Compile`: emit the requested block, then (under the
`MultiBlockCompilation` option) greedily drain the successor worklist.
`mem.unprotect()`/`invalidate`/`protect()` touch page protection and the
instruction cache only. -/
def AddressSpaceState.compile (s : AddressSpaceState) (env : ExternalEnv) (fuel : Nat)
    (descriptor : LocationDescriptor) : Except String (CodePtr × AddressSpaceState) :=
  match doBlock env s [] descriptor with
  | Except.error e => Except.error e
  | Except.ok (result, s1, next) =>
    if s.multi_block then
      match drainNext env fuel s1 next with
      | Except.error e => Except.error e
      | Except.ok s2 => Except.ok (result, s2)
    else Except.ok (result, s1)

/-- `AddressSpace::GetOrEmit`: cached entry point on hit; otherwise
`ClearCache` when the arena is nearly full, then `Compile`. -/
def AddressSpaceState.getOrEmit (s : AddressSpaceState) (env : ExternalEnv) (fuel : Nat)
    (descriptor : LocationDescriptor) : Except String (CodePtr × AddressSpaceState) :=
  match s.get descriptor with
  | some block_entry => Except.ok (block_entry, s)
  | Option.none =>
    (if s.isNearlyFull then s.clearCache else s).compile env fuel descriptor

/-- The `AddressSpace` constructor:
`ASSERT_MSG(code_cache_size <= 128 * 1024 * 1024, ...)`, then an empty cache
over a fresh arena (the prelude, emitted by the derived class, ends at
`end_of_prelude`, where the write cursor starts). -/
def mkAddressSpace (multi_block : Bool) (code_cache_size end_of_prelude : Nat) :
    Except String AddressSpaceState :=
  if code_cache_size ≤ 128 * 1024 * 1024 then
    Except.ok
      { multi_block := multi_block
        code_cache_size := code_cache_size
        end_of_prelude := end_of_prelude
        cursor := end_of_prelude
        block_entries := []
        reverse_block_entries := []
        block_infos := []
        block_references := []
        do_not_fastmem := [] }
  else Except.error "code_cache_size > 128 MiB not currently supported"

/-! ## Coprocessor dispatch emitter
(`emit_arm64_a32_coprocessor.cpp`) -/

/-- Host registers as the emitter names them: numbered GPRs (`W1`/`X0` are
the 32/64-bit views of `gpr 1`/`gpr 0`), the two designated scratch
registers `Xscratch0`/`Xscratch1` (`Wscratch1` is the 32-bit view of
`scratch1`), and registers handed out by the register allocator. -/
inductive AReg
  | gpr (n : Nat)
  | scratch0
  | scratch1
  | alloc (n : Nat)
deriving DecidableEq

/-- The host-code and register-allocator actions the coprocessor emitter
performs, in program order. Calls (`blr`), stores and the pure
register-allocator bookkeeping (`prepareForCall`, `readW`, `writeW`,
`writeX`, `defineAsRegister`) do not participate in the register dataflow
interpreted by `execEvents` below. -/
inductive EmitEvent
  | prepareForCall
  | movW (rd : AReg) (imm : Nat)
  | movX (rd : AReg) (imm : Nat)
  | relocCall (target : LinkTarget)
  | defineAsRegister (r : AReg)
  | blr (rn : AReg)
  | strW (rt rn : AReg)
  | ldrW (rt rn : AReg)
  | ldrX (rt rn : AReg)
  | bfi (rd rn : AReg) (lsb width : Nat)
  | readW (r : AReg)
  | writeW (r : AReg)
  | writeX (r : AReg)
deriving DecidableEq

/-- `A32::Coprocessor::Callback` (a function pointer plus an optional user
argument, both 64-bit bit patterns). -/
structure CoprocCallback where
  function : Nat
  userArg : Option Nat
deriving DecidableEq

/-- `std::variant<std::monostate, Callback, u32*>` returned by the one-word
compile methods. -/
inductive CoprocOneWordAction
  | monostate
  | callback (cb : CoprocCallback)
  | wordCell (ptr : Nat)
deriving DecidableEq

/-- `std::variant<std::monostate, Callback, std::array<u32*, 2>>` returned
by the two-word compile methods. -/
inductive CoprocTwoWordsAction
  | monostate
  | callback (cb : CoprocCallback)
  | wordPair (ptr0 ptr1 : Nat)
deriving DecidableEq

/-- A configured `A32::Coprocessor`: its compile methods, keyed exactly as
the emitter calls them. -/
structure Coprocessor where
  compileInternalOperation : Bool → Nat → Nat → Nat → Nat → Nat → Option CoprocCallback
  compileSendOneWord : Bool → Nat → Nat → Nat → Nat → CoprocOneWordAction
  compileSendTwoWords : Bool → Nat → Nat → CoprocTwoWordsAction
  compileGetOneWord : Bool → Nat → Nat → Nat → Nat → CoprocOneWordAction
  compileGetTwoWords : Bool → Nat → Nat → CoprocTwoWordsAction
  compileLoadWords : Bool → Bool → Nat → Option Nat → Option CoprocCallback
  compileStoreWords : Bool → Bool → Nat → Option Nat → Option CoprocCallback

/-- The pieces of `EmitContext` and of the register allocator the
coprocessor emitter consults: the configured coprocessor table and the
registers the allocator hands out for `WriteW`/`WriteX`/`ReadW`. -/
structure CoprocCtx where
  coprocessors : Nat → Option Coprocessor
  writeWReg : AReg
  writeXReg : AReg
  readWReg1 : AReg
  readWReg2 : AReg

/-- The fields of a coprocessor IR instruction the emitter reads:
`args[0].GetImmediateU64()` (the instruction's location descriptor),
`GetArg(1).GetCoprocInfo()` and whether `GetType() != Void`. -/
structure CoprocInst where
  locDesc : Nat
  coprocInfo : List Nat
  retNonVoid : Bool
deriving DecidableEq

/-- `coproc_info[i]` access (`std::array<u8, 8>` indexing). -/
def coprocInfoAt (info : List Nat) (i : Nat) : Nat := info.getD i 0

/-- Modelled from the spec: `A32::LocationDescriptor::PC()` is declared in a
header outside this excerpt; the A32 location descriptor packs the guest PC
in its low 32 bits (spec §3: "guest PC plus mode bits"). -/
def a32PC (descriptor : Nat) : Nat := descriptor % 2 ^ 32

/-- Modelled from the spec: the `A32::Exception` enumeration is declared in
`dynarmic/interface/A32/config.h`, outside this excerpt. Only the member
the emitter uses is modelled; its numeric value is immaterial to the
claims, which mention the member symbolically. -/
inductive A32Exception
  | InvalidCoprocessorInstruction
deriving DecidableEq

/-- The `static_cast<u32>` of an `A32::Exception` member. -/
def A32Exception.toCode : A32Exception → Nat
  | A32Exception.InvalidCoprocessorInstruction => 0

/-- `EmitCoprocessorException`: prepare for a call, materialise the current
guest PC into `W1` and the exception number into `W2`, emit the relocation
calling the prelude's `ExceptionRaised` helper and, when the instruction
produces a value, define its result as `X0` (a fake value). -/
def emitCoprocessorException (inst : CoprocInst) : List EmitEvent :=
  [EmitEvent.prepareForCall,
   EmitEvent.movW (AReg.gpr 1) (a32PC inst.locDesc),
   EmitEvent.movW (AReg.gpr 2) (A32Exception.toCode A32Exception.InvalidCoprocessorInstruction),
   EmitEvent.relocCall LinkTarget.ExceptionRaised]
  ++ (if inst.retNonVoid then [EmitEvent.defineAsRegister (AReg.gpr 0)] else [])

/-- `CallCoprocCallback`: prepare for a call (routing the value arguments to
the ABI argument registers), set `X0` to the user argument if present, load
the callback target into `Xscratch0`, call it, and define the result as
`X0` when an instruction is supplied. -/
def callCoprocCallback (cb : CoprocCallback) (defineResult : Bool) : List EmitEvent :=
  [EmitEvent.prepareForCall]
  ++ (match cb.userArg with
      | some ua => [EmitEvent.movX (AReg.gpr 0) ua]
      | Option.none => [])
  ++ [EmitEvent.movX AReg.scratch0 cb.function, EmitEvent.blr AReg.scratch0]
  ++ (if defineResult then [EmitEvent.defineAsRegister (AReg.gpr 0)] else [])

/-- `EmitIR<IR::Opcode::A32CoprocInternalOperation>`. -/
def emitA32CoprocInternalOperation (ctx : CoprocCtx) (inst : CoprocInst) : List EmitEvent :=
  let info := inst.coprocInfo
  match ctx.coprocessors (coprocInfoAt info 0) with
  | Option.none => emitCoprocessorException inst
  | some coproc =>
    match coproc.compileInternalOperation (coprocInfoAt info 1 != 0) (coprocInfoAt info 2)
        (coprocInfoAt info 3) (coprocInfoAt info 4) (coprocInfoAt info 5)
        (coprocInfoAt info 6) with
    | Option.none => emitCoprocessorException inst
    | some cb => callCoprocCallback cb false

/-- `EmitIR<IR::Opcode::A32CoprocSendOneWord>`. -/
def emitA32CoprocSendOneWord (ctx : CoprocCtx) (inst : CoprocInst) : List EmitEvent :=
  let info := inst.coprocInfo
  match ctx.coprocessors (coprocInfoAt info 0) with
  | Option.none => emitCoprocessorException inst
  | some coproc =>
    match coproc.compileSendOneWord (coprocInfoAt info 1 != 0) (coprocInfoAt info 2)
        (coprocInfoAt info 3) (coprocInfoAt info 4) (coprocInfoAt info 5) with
    | CoprocOneWordAction.monostate => emitCoprocessorException inst
    | CoprocOneWordAction.callback cb => callCoprocCallback cb false
    | CoprocOneWordAction.wordCell destination_ptr =>
      [EmitEvent.readW ctx.readWReg1,
       EmitEvent.movX AReg.scratch0 destination_ptr,
       EmitEvent.strW ctx.readWReg1 AReg.scratch0]

/-- `EmitIR<IR::Opcode::A32CoprocSendTwoWords>`. -/
def emitA32CoprocSendTwoWords (ctx : CoprocCtx) (inst : CoprocInst) : List EmitEvent :=
  let info := inst.coprocInfo
  match ctx.coprocessors (coprocInfoAt info 0) with
  | Option.none => emitCoprocessorException inst
  | some coproc =>
    match coproc.compileSendTwoWords (coprocInfoAt info 1 != 0) (coprocInfoAt info 2)
        (coprocInfoAt info 3) with
    | CoprocTwoWordsAction.monostate => emitCoprocessorException inst
    | CoprocTwoWordsAction.callback cb => callCoprocCallback cb false
    | CoprocTwoWordsAction.wordPair ptr0 ptr1 =>
      [EmitEvent.readW ctx.readWReg1,
       EmitEvent.readW ctx.readWReg2,
       EmitEvent.movX AReg.scratch0 ptr0,
       EmitEvent.movX AReg.scratch1 ptr1,
       EmitEvent.strW ctx.readWReg1 AReg.scratch0,
       EmitEvent.strW ctx.readWReg2 AReg.scratch1]

/-- `EmitIR<IR::Opcode::A32CoprocGetOneWord>`. -/
def emitA32CoprocGetOneWord (ctx : CoprocCtx) (inst : CoprocInst) : List EmitEvent :=
  let info := inst.coprocInfo
  match ctx.coprocessors (coprocInfoAt info 0) with
  | Option.none => emitCoprocessorException inst
  | some coproc =>
    match coproc.compileGetOneWord (coprocInfoAt info 1 != 0) (coprocInfoAt info 2)
        (coprocInfoAt info 3) (coprocInfoAt info 4) (coprocInfoAt info 5) with
    | CoprocOneWordAction.monostate => emitCoprocessorException inst
    | CoprocOneWordAction.callback cb => callCoprocCallback cb true
    | CoprocOneWordAction.wordCell source_ptr =>
      [EmitEvent.writeW ctx.writeWReg,
       EmitEvent.movX AReg.scratch0 source_ptr,
       EmitEvent.ldrW ctx.writeWReg AReg.scratch0]

/-- `EmitIR<IR::Opcode::A32CoprocGetTwoWords>`. On the `wordPair` path the
source emits `LDR Xvalue, [Xscratch0]` (a 64-bit load), then
`LDR Wscratch1, [Xscratch1]` (a 32-bit load), then
`BFI Xvalue, Xscratch1, 32, 32`. -/
def emitA32CoprocGetTwoWords (ctx : CoprocCtx) (inst : CoprocInst) : List EmitEvent :=
  let info := inst.coprocInfo
  match ctx.coprocessors (coprocInfoAt info 0) with
  | Option.none => emitCoprocessorException inst
  | some coproc =>
    match coproc.compileGetTwoWords (coprocInfoAt info 1 != 0) (coprocInfoAt info 2)
        (coprocInfoAt info 3) with
    | CoprocTwoWordsAction.monostate => emitCoprocessorException inst
    | CoprocTwoWordsAction.callback cb => callCoprocCallback cb true
    | CoprocTwoWordsAction.wordPair ptr0 ptr1 =>
      [EmitEvent.writeX ctx.writeXReg,
       EmitEvent.movX AReg.scratch0 ptr0,
       EmitEvent.movX AReg.scratch1 ptr1,
       EmitEvent.ldrX ctx.writeXReg AReg.scratch0,
       EmitEvent.ldrW AReg.scratch1 AReg.scratch1,
       EmitEvent.bfi ctx.writeXReg AReg.scratch1 32 32]

/-- `EmitIR<IR::Opcode::A32CoprocLoadWords>`. -/
def emitA32CoprocLoadWords (ctx : CoprocCtx) (inst : CoprocInst) : List EmitEvent :=
  let info := inst.coprocInfo
  let opt : Option Nat :=
    if coprocInfoAt info 4 != 0 then some (coprocInfoAt info 5) else Option.none
  match ctx.coprocessors (coprocInfoAt info 0) with
  | Option.none => emitCoprocessorException inst
  | some coproc =>
    match coproc.compileLoadWords (coprocInfoAt info 1 != 0) (coprocInfoAt info 2 != 0)
        (coprocInfoAt info 3) opt with
    | Option.none => emitCoprocessorException inst
    | some cb => callCoprocCallback cb false

/-- `EmitIR<IR::Opcode::A32CoprocStoreWords>`. -/
def emitA32CoprocStoreWords (ctx : CoprocCtx) (inst : CoprocInst) : List EmitEvent :=
  let info := inst.coprocInfo
  let opt : Option Nat :=
    if coprocInfoAt info 4 != 0 then some (coprocInfoAt info 5) else Option.none
  match ctx.coprocessors (coprocInfoAt info 0) with
  | Option.none => emitCoprocessorException inst
  | some coproc =>
    match coproc.compileStoreWords (coprocInfoAt info 1 != 0) (coprocInfoAt info 2 != 0)
        (coprocInfoAt info 3) opt with
    | Option.none => emitCoprocessorException inst
    | some cb => callCoprocCallback cb false

/-- The seven coprocessor IR opcodes the emitter lowers. -/
inductive CoprocOpcode
  | internalOperation
  | sendOneWord
  | sendTwoWords
  | getOneWord
  | getTwoWords
  | loadWords
  | storeWords
deriving DecidableEq

/-- Dispatch to the seven `EmitIR` instantiations. -/
def emitCoproc : CoprocOpcode → CoprocCtx → CoprocInst → List EmitEvent
  | CoprocOpcode.internalOperation => emitA32CoprocInternalOperation
  | CoprocOpcode.sendOneWord => emitA32CoprocSendOneWord
  | CoprocOpcode.sendTwoWords => emitA32CoprocSendTwoWords
  | CoprocOpcode.getOneWord => emitA32CoprocGetOneWord
  | CoprocOpcode.getTwoWords => emitA32CoprocGetTwoWords
  | CoprocOpcode.loadWords => emitA32CoprocLoadWords
  | CoprocOpcode.storeWords => emitA32CoprocStoreWords

/-- "The coprocessor's compile method returns the `None` action" for a given
opcode: the respective method, called with the arguments the emitter decodes
from `coproc_info`, returns `std::nullopt` / `std::monostate`. -/
def coprocActionIsNone (op : CoprocOpcode) (coproc : Coprocessor) (info : List Nat) : Prop :=
  match op with
  | CoprocOpcode.internalOperation =>
    coproc.compileInternalOperation (coprocInfoAt info 1 != 0) (coprocInfoAt info 2)
      (coprocInfoAt info 3) (coprocInfoAt info 4) (coprocInfoAt info 5)
      (coprocInfoAt info 6) = Option.none
  | CoprocOpcode.sendOneWord =>
    coproc.compileSendOneWord (coprocInfoAt info 1 != 0) (coprocInfoAt info 2)
      (coprocInfoAt info 3) (coprocInfoAt info 4) (coprocInfoAt info 5)
      = CoprocOneWordAction.monostate
  | CoprocOpcode.sendTwoWords =>
    coproc.compileSendTwoWords (coprocInfoAt info 1 != 0) (coprocInfoAt info 2)
      (coprocInfoAt info 3) = CoprocTwoWordsAction.monostate
  | CoprocOpcode.getOneWord =>
    coproc.compileGetOneWord (coprocInfoAt info 1 != 0) (coprocInfoAt info 2)
      (coprocInfoAt info 3) (coprocInfoAt info 4) (coprocInfoAt info 5)
      = CoprocOneWordAction.monostate
  | CoprocOpcode.getTwoWords =>
    coproc.compileGetTwoWords (coprocInfoAt info 1 != 0) (coprocInfoAt info 2)
      (coprocInfoAt info 3) = CoprocTwoWordsAction.monostate
  | CoprocOpcode.loadWords =>
    coproc.compileLoadWords (coprocInfoAt info 1 != 0) (coprocInfoAt info 2 != 0)
      (coprocInfoAt info 3)
      (if coprocInfoAt info 4 != 0 then some (coprocInfoAt info 5) else Option.none)
      = Option.none
  | CoprocOpcode.storeWords =>
    coproc.compileStoreWords (coprocInfoAt info 1 != 0) (coprocInfoAt info 2 != 0)
      (coprocInfoAt info 3)
      (if coprocInfoAt info 4 != 0 then some (coprocInfoAt info 5) else Option.none)
      = Option.none

/-! ### Dataflow semantics for the emitted sequences -/

/-- A byte of host memory (memories are byte maps; only the low 8 bits of
each cell are meaningful). -/
def byteAt (m : Nat → Nat) (a : Nat) : Nat := m a % 256

/-- A little-endian 32-bit load at byte address `a`. -/
def load32 (m : Nat → Nat) (a : Nat) : Nat :=
  byteAt m a + 256 * byteAt m (a + 1) + 256 ^ 2 * byteAt m (a + 2) + 256 ^ 3 * byteAt m (a + 3)

/-- A little-endian 64-bit load at byte address `a`. -/
def load64 (m : Nat → Nat) (a : Nat) : Nat :=
  load32 m a + 2 ^ 32 * load32 m (a + 4)

/-- `BFI rd, rn, lsb, width`: insert the low `width` bits of `rn` into
`rd` at bit `lsb`, leaving the other bits of `rd` unchanged. -/
def bfiVal (dst src lsb width : Nat) : Nat :=
  dst % 2 ^ lsb + (src % 2 ^ width) * 2 ^ lsb + dst / 2 ^ (lsb + width) * 2 ^ (lsb + width)

/-- Register-file update. -/
def setReg (rf : AReg → Nat) (r : AReg) (v : Nat) : AReg → Nat :=
  fun r2 => if r2 = r then v else rf r2

/-- Register dataflow of one emitted event over a fixed memory. `W`-view
writes hold 32-bit values, `X`-view writes 64-bit values; calls, stores and
register-allocator bookkeeping leave the modelled register file unchanged. -/
def stepEvent (m : Nat → Nat) (rf : AReg → Nat) : EmitEvent → (AReg → Nat)
  | EmitEvent.movW r imm => setReg rf r (imm % 2 ^ 32)
  | EmitEvent.movX r imm => setReg rf r (imm % 2 ^ 64)
  | EmitEvent.ldrW rt rn => setReg rf rt (load32 m (rf rn))
  | EmitEvent.ldrX rt rn => setReg rf rt (load64 m (rf rn))
  | EmitEvent.bfi rd rn lsb width => setReg rf rd (bfiVal (rf rd) (rf rn) lsb width)
  | _ => rf

/-- Run a sequence of emitted events over a fixed memory. -/
def execEvents (m : Nat → Nat) (rf : AReg → Nat) : List EmitEvent → (AReg → Nat)
  | [] => rf
  | e :: es => execEvents m (stepEvent m rf e) es

/-- Whether an event is a 32-bit load. -/
def EmitEvent.isLoad32 : EmitEvent → Bool
  | EmitEvent.ldrW _ _ => true
  | _ => false

/-- Whether an event is a 64-bit load. -/
def EmitEvent.isLoad64 : EmitEvent → Bool
  | EmitEvent.ldrX _ _ => true
  | _ => false


/-! ## Concrete fixtures used by the witnesses -/

/-- The state-only effect of one `InvalidateBasicBlocks` iteration (helper
decomposition of `invalidateStep` used in proofs). -/
def invalidateStepState (s : AddressSpaceState) (descriptor : LocationDescriptor) :
    AddressSpaceState :=
  match alookup s.block_entries descriptor with
  | Option.none => s
  | some _ =>
    { s.relinkForDescriptor descriptor Option.none with
      block_entries :=
        aerase (s.relinkForDescriptor descriptor Option.none).block_entries descriptor }

/-- The events of one `InvalidateBasicBlocks` iteration (helper decomposition
of `invalidateStep` used in proofs). -/
def invalidateStepEvents (s : AddressSpaceState) (descriptor : LocationDescriptor) :
    List CacheEvent :=
  match alookup s.block_entries descriptor with
  | Option.none => []
  | some _ =>
    [CacheEvent.relinkEvt descriptor Option.none, CacheEvent.eraseEvt descriptor]

/-- The patch policy table of the spec (one row per
`(type, target present?)` pair); the `invalidType` row is never consulted
under the validity hypothesis of the linking theorem. -/
def expectedPatch (entry_point : CodePtr) (target_ptr : Option CodePtr)
    (return_to_dispatcher : CodePtr) (r : BlockRelocation) : PatchWrite :=
  match r.type, target_ptr with
  | BlockRelocationType.Branch, some t => PatchWrite.branch (entry_point + r.ptr_offset) t
  | BlockRelocationType.Branch, Option.none => PatchWrite.nop (entry_point + r.ptr_offset)
  | BlockRelocationType.MoveToScratch1, some t =>
    PatchWrite.movToScratch1 (entry_point + r.ptr_offset) t
  | BlockRelocationType.MoveToScratch1, Option.none =>
    PatchWrite.movToScratch1 (entry_point + r.ptr_offset) return_to_dispatcher
  | BlockRelocationType.invalidType _, _ => PatchWrite.nop (entry_point + r.ptr_offset)

/-- A concrete fastmem patch entry (recompile flagged). -/
def sampleEntry : FastmemPatchInfoEntry :=
  { fc := 42, recompile := true, marker := (7, 8) }

/-- A concrete emitted block at entry point 100 with one fastmem patch site
at offset 8. -/
def sampleInfo : EmittedBlockInfo :=
  { entry_point := 100, size := 32, relocations := [], block_relocations := []
    fastmem_patch_info := [(8, sampleEntry)] }

/-- A concrete cache state holding the single block `sampleInfo` for
descriptor 7. -/
def sampleState : AddressSpaceState :=
  { multi_block := false, code_cache_size := 4194304, end_of_prelude := 64, cursor := 200
    block_entries := [(7, 100)]
    reverse_block_entries := [(100, 7)]
    block_infos := [(100, sampleInfo)]
    block_references := [(7, [])]
    do_not_fastmem := [(3, 5)] }

/-- A concrete external environment: every descriptor compiles to a 4-byte
block at the current cursor with a `ReturnToDispatch` terminal. -/
def envW : ExternalEnv :=
  { genIR := fun d => { location := d, terminal := Terminal.ReturnToDispatch }
    emitArm64 := fun cursor _ =>
      ({ entry_point := cursor, size := 4, relocations := [], block_relocations := []
         fastmem_patch_info := [] }, cursor + 4) }

/-- An empty cache state over a 4 MiB arena. -/
def sW : AddressSpaceState :=
  { multi_block := false, code_cache_size := 4194304, end_of_prelude := 64, cursor := 64
    block_entries := [], reverse_block_entries := [], block_infos := [], block_references := []
    do_not_fastmem := [] }

/-- The state `sW` evolves to after `GetOrEmit` of descriptor 9 under
`envW`. -/
def sW1 : AddressSpaceState :=
  { multi_block := false, code_cache_size := 4194304, end_of_prelude := 64, cursor := 68
    block_entries := [(9, 64)]
    reverse_block_entries := [(64, 9)]
    block_infos := [(64, { entry_point := 64, size := 4, relocations := []
                           block_relocations := [], fastmem_patch_info := [] })]
    block_references := [(9, [])]
    do_not_fastmem := [] }

/-- An emit context with no coprocessor configured at any index. -/
def ctxAbsent : CoprocCtx :=
  { coprocessors := fun _ => Option.none, writeWReg := AReg.alloc 1, writeXReg := AReg.alloc 0
    readWReg1 := AReg.alloc 2, readWReg2 := AReg.alloc 3 }

/-- A concrete coprocessor instruction: coprocessor index 7, value-producing. -/
def sampleCoprocInst : CoprocInst :=
  { locDesc := 4660, coprocInfo := [7, 0, 1, 2, 3, 4, 5], retNonVoid := true }

/-- A coprocessor whose `CompileGetTwoWords` yields a `WordPair` action over
the 32-bit cells at addresses 4096 and 8192; every other method declines. -/
def coprocC9 : Coprocessor :=
  { compileInternalOperation := fun _ _ _ _ _ _ => Option.none
    compileSendOneWord := fun _ _ _ _ _ => CoprocOneWordAction.monostate
    compileSendTwoWords := fun _ _ _ => CoprocTwoWordsAction.monostate
    compileGetOneWord := fun _ _ _ _ _ => CoprocOneWordAction.monostate
    compileGetTwoWords := fun _ _ _ => CoprocTwoWordsAction.wordPair 4096 8192
    compileLoadWords := fun _ _ _ _ => Option.none
    compileStoreWords := fun _ _ _ _ => Option.none }

/-- An emit context with `coprocC9` configured at index 7. -/
def ctxC9 : CoprocCtx :=
  { coprocessors := fun n => if n = 7 then some coprocC9 else Option.none
    writeWReg := AReg.alloc 1, writeXReg := AReg.alloc 0
    readWReg1 := AReg.alloc 2, readWReg2 := AReg.alloc 3 }

/-- A memory whose 32-bit cell at 4096 holds 0xAAAAAAAA and whose cell at
8192 holds 0xBBBBBBBB. -/
def memC9 : Nat -> Nat := fun a =>
  if 4096 <= a && a < 4100 then 170 else if 8192 <= a && a < 8196 then 187 else 0

/-! ## Helper lemmas -/

@[simp]
theorem alookup_nil {β : Type} (k : Nat) : alookup ([] : List (Nat × β)) k = Option.none := rfl

theorem alookup_cons {β : Type} (x : Nat × β) (xs : List (Nat × β)) (k : Nat) :
    alookup (x :: xs) k = if x.1 = k then some x.2 else alookup xs k := rfl

@[simp]
theorem alookup_cons_self {β : Type} (k : Nat) (v : β) (xs : List (Nat × β)) :
    alookup ((k, v) :: xs) k = some v := by
  simp [alookup]

theorem alookup_cons_ne {β : Type} (k k' : Nat) (v : β) (xs : List (Nat × β)) (h : k' ≠ k) :
    alookup ((k', v) :: xs) k = alookup xs k := by
  simp [alookup, h]

theorem alookup_aerase_ne {β : Type} (l : List (Nat × β)) (k k' : Nat) (h : k ≠ k') :
    alookup (aerase l k') k = alookup l k := by
  induction l with
  | nil => rfl
  | cons x xs ih =>
    by_cases hx : x.1 = k'
    · simp [aerase, hx, alookup, Ne.symm h]
    · by_cases hk : x.1 = k
      · simp [aerase, alookup, hx, hk, h]
      · simp [aerase, alookup, hx, hk, ih]

theorem alookup_ainsertReplace_self {β : Type} (l : List (Nat × β)) (k : Nat) (v : β) :
    alookup (ainsertReplace l k v) k = some v := by
  induction l with
  | nil => simp [ainsertReplace]
  | cons x xs ih =>
    by_cases hx : x.1 = k
    · simp [ainsertReplace, hx]
    · simp [ainsertReplace, hx, alookup, ih]

theorem alookup_ainsertReplace_ne {β : Type} (l : List (Nat × β)) (k k' : Nat) (v : β)
    (h : k' ≠ k) : alookup (ainsertReplace l k' v) k = alookup l k := by
  induction l with
  | nil => simp [ainsertReplace, alookup, h]
  | cons x xs ih =>
    by_cases hx : x.1 = k'
    · have hxk : x.1 ≠ k := by rw [hx]; exact h
      simp [ainsertReplace, hx, alookup, h, hxk]
    · simp [ainsertReplace, hx, alookup, ih]

/-- In a list whose keys are strictly increasing, entries are determined by
their key. -/
theorem pairwise_key_inj {β : Type} {l : List (Nat × β)}
    (hs : l.Pairwise (fun a b => a.1 < b.1)) :
    ∀ x ∈ l, ∀ y ∈ l, x.1 = y.1 → x = y := by
  induction l with
  | nil => intro x hx; cases hx
  | cons a as ih =>
    rcases List.pairwise_cons.mp hs with ⟨ha, has⟩
    intro x hx y hy hxy
    rcases List.mem_cons.mp hx with hx1 | hx2
    · rcases List.mem_cons.mp hy with hy1 | hy2
      · rw [hx1, hy1]
      · subst hx1
        exact absurd hxy (Nat.ne_of_lt (ha y hy2))
    · rcases List.mem_cons.mp hy with hy1 | hy2
      · subst hy1
        exact absurd hxy.symm (Nat.ne_of_lt (ha x hx2))
      · exact ih has x hx2 y hy2 hxy

/-- Characterisation of `mapLastLE` on a key-sorted list: it returns the
entry with the greatest key `≤ k` (and `none` exactly when every key
exceeds `k`). -/
theorem mapLastLE_spec {β : Type} (l : List (Nat × β)) (k : Nat)
    (hs : l.Pairwise (fun a b => a.1 < b.1)) :
    (∀ x, mapLastLE l k = some x →
      x ∈ l ∧ x.1 ≤ k ∧ ∀ y ∈ l, y.1 ≤ k → y.1 ≤ x.1) ∧
    (mapLastLE l k = Option.none ↔ ∀ y ∈ l, k < y.1) := by
  induction l with
  | nil => simp [mapLastLE]
  | cons a as ih =>
    rcases List.pairwise_cons.mp hs with ⟨ha, has⟩
    rcases ih has with ⟨ihsome, ihnone⟩
    by_cases hak : a.1 ≤ k
    · constructor
      · intro x hx
        simp only [mapLastLE, if_pos hak] at hx
        have hx' : (mapLastLE as k).getD a = x := Option.some.inj hx
        cases htail : mapLastLE as k with
        | none =>
          rw [htail] at hx'
          simp only [Option.getD] at hx'
          subst hx'
          refine ⟨List.mem_cons_self a as, hak, ?_⟩
          intro y hy hyk
          rcases List.mem_cons.mp hy with hy1 | hy2
          · rw [hy1]
          · exact absurd hyk (Nat.not_le_of_lt (ihnone.mp htail y hy2))
        | some z =>
          rw [htail] at hx'
          simp only [Option.getD] at hx'
          subst hx'
          rcases ihsome z htail with ⟨hzmem, hzk, hzmax⟩
          refine ⟨List.mem_cons_of_mem a hzmem, hzk, ?_⟩
          intro y hy hyk
          rcases List.mem_cons.mp hy with hy1 | hy2
          · rw [hy1]; exact Nat.le_of_lt (ha z hzmem)
          · exact hzmax y hy2 hyk
      · simp only [mapLastLE, if_pos hak]
        constructor
        · intro h; exact absurd h (Option.some_ne_none _)
        · intro h
          exact absurd hak (Nat.not_le_of_lt (h a (List.mem_cons_self a as)))
    · constructor
      · intro x hx
        simp only [mapLastLE, if_neg hak] at hx
        exact Option.noConfusion hx
      · simp only [mapLastLE, if_neg hak]
        constructor
        · intro _ y hy
          rcases List.mem_cons.mp hy with hy1 | hy2
          · rw [hy1]; exact Nat.lt_of_not_le hak
          · exact Nat.lt_trans (Nat.lt_of_not_le hak) (ha y hy2)
        · intro _; trivial

/-- On a key-sorted list, `mapLastLE` finds precisely the entry known to have
the greatest key `≤ k`. -/
theorem mapLastLE_eq_of {β : Type} (l : List (Nat × β)) (k : Nat) (x : Nat × β)
    (hs : l.Pairwise (fun a b => a.1 < b.1)) (hmem : x ∈ l) (hxk : x.1 ≤ k)
    (hmax : ∀ y ∈ l, y.1 ≤ k → y.1 ≤ x.1) :
    mapLastLE l k = some x := by
  cases hres : mapLastLE l k with
  | none =>
    exact absurd hxk (Nat.not_le_of_lt ((mapLastLE_spec l k hs).2.mp hres x hmem))
  | some z =>
    rcases (mapLastLE_spec l k hs).1 z hres with ⟨hzmem, hzk, hzmax⟩
    have hkey : z.1 = x.1 := Nat.le_antisymm (hmax z hzmem hzk) (hzmax x hmem hxk)
    rw [pairwise_key_inj hs z hzmem x hmem hkey]


/-! ## C4: cache reset -/

/-- C4: after `ClearCache`, `Get(L)` is null for every descriptor L, all four
maps (`block_entries`, `reverse_block_entries`, `block_infos`,
`block_references`) are empty, the arena write cursor equals
`end_of_prelude`, and the do-not-fastmem marker set is unchanged (markers
set before the clear remain set afterward). -/
theorem clearCache_resets_and_keeps_markers (s : AddressSpaceState)
    (descriptor : LocationDescriptor) (marker : DoNotFastmemMarker) :
    s.clearCache.get descriptor = Option.none ∧
    s.clearCache.block_entries = [] ∧
    s.clearCache.reverse_block_entries = [] ∧
    s.clearCache.block_infos = [] ∧
    s.clearCache.block_references = [] ∧
    s.clearCache.cursor = s.end_of_prelude ∧
    s.clearCache.do_not_fastmem = s.do_not_fastmem ∧
    (marker ∈ s.do_not_fastmem → marker ∈ s.clearCache.do_not_fastmem) :=
  ⟨rfl, rfl, rfl, rfl, rfl, rfl, rfl, fun h => h⟩

/-- Witness for C4 on the concrete `sampleState` and its recorded marker. -/
theorem clearCache_resets_and_keeps_markers_witness :
    sampleState.clearCache.get 7 = Option.none ∧
    (3, 5) ∈ sampleState.clearCache.do_not_fastmem :=
  ⟨(clearCache_resets_and_keeps_markers sampleState 7 (3, 5)).1,
   (clearCache_resets_and_keeps_markers sampleState 7 (3, 5)).2.2.2.2.2.2.2 (by decide)⟩

/-! ## C10: constructor size assertion -/

/-- C10: constructing an `AddressSpace` with `code_cache_size` strictly
greater than 128 MiB fails the `ASSERT_MSG`; for every size at or below the
bound, construction succeeds (so the assertion branch is unreachable). -/
theorem mkAddressSpace_size_assert (mb : Bool) (n ep : Nat) :
    (128 * 1024 * 1024 < n →
      mkAddressSpace mb n ep =
        Except.error "code_cache_size > 128 MiB not currently supported") ∧
    (n ≤ 128 * 1024 * 1024 → ∃ s, mkAddressSpace mb n ep = Except.ok s) := by
  constructor
  · intro h
    simp [mkAddressSpace, Nat.not_le_of_lt h]
  · intro h
    simp only [mkAddressSpace, if_pos h]
    exact ⟨_, rfl⟩

/-- Witness for C10: one byte over 128 MiB is rejected, 1 MiB is accepted. -/
theorem mkAddressSpace_size_assert_witness :
    mkAddressSpace false 134217729 64 =
      Except.error "code_cache_size > 128 MiB not currently supported" ∧
    ∃ s, mkAddressSpace false 1048576 64 = Except.ok s :=
  ⟨(mkAddressSpace_size_assert false 134217729 64).1 (by decide),
   (mkAddressSpace_size_assert false 1048576 64).2 (by decide)⟩

/-! ## C7: reverse lookup -/

/-- C7: `ReverseGetEntryPoint(P)` returns the greatest entry point `≤ P`
recorded in `reverse_block_entries` and is null exactly when no recorded
entry point lies at or below `P`; in particular a non-null result is `≤ P`.
The hypothesis is the `std::map` key-ordering invariant. -/
theorem reverseGetEntryPoint_greatest (s : AddressSpaceState) (host_pc : Nat)
    (hs : s.reverse_block_entries.Pairwise (fun a b => a.1 < b.1)) :
    (∀ q, s.reverseGetEntryPoint host_pc = some q →
      q ≤ host_pc ∧ q ∈ s.reverse_block_entries.map Prod.fst ∧
      ∀ k ∈ s.reverse_block_entries.map Prod.fst, k ≤ host_pc → k ≤ q) ∧
    (s.reverseGetEntryPoint host_pc = Option.none ↔
      ∀ k ∈ s.reverse_block_entries.map Prod.fst, host_pc < k) := by
  rcases mapLastLE_spec s.reverse_block_entries host_pc hs with ⟨hsome, hnone⟩
  simp only [AddressSpaceState.reverseGetEntryPoint]
  constructor
  · intro q hq
    rcases Option.map_eq_some'.mp hq with ⟨x, hx, hxq⟩
    rcases hsome x hx with ⟨hmem, hle, hmax⟩
    subst hxq
    refine ⟨hle, List.mem_map_of_mem Prod.fst hmem, ?_⟩
    intro k hk hkle
    rcases List.mem_map.mp hk with ⟨y, hymem, hyk⟩
    subst hyk
    exact hmax y hymem hkle
  · constructor
    · intro h k hk
      rcases List.mem_map.mp hk with ⟨y, hymem, hyk⟩
      subst hyk
      exact hnone.mp (Option.map_eq_none'.mp h) y hymem
    · intro h
      exact Option.map_eq_none'.mpr
        (hnone.mpr (fun y hy => h y.1 (List.mem_map_of_mem Prod.fst hy)))

/-- Witness for C7 on the concrete `sampleState` (single block at 100):
probing 108 returns 100, and the maximality property holds there. -/
theorem reverseGetEntryPoint_greatest_witness :
    100 ≤ 108 ∧ 100 ∈ sampleState.reverse_block_entries.map Prod.fst ∧
    ∀ k ∈ sampleState.reverse_block_entries.map Prod.fst, k ≤ 108 → k ≤ 100 :=
  (reverseGetEntryPoint_greatest sampleState 108 (by simp [sampleState])).1 100 rfl

/-! ## C6: block-link patch policy -/

/-- C6: `LinkBlockLinks` patches every slot at `entry_point + offset` per
the policy table — `Branch` becomes a direct branch to the target or a
no-op when the target is absent; `MoveToScratch1` materialises the target,
or the dispatcher when absent, into scratch register 1 — and any other
relocation type is a fatal assertion. -/
theorem linkBlockLinks_policy (entry_point : CodePtr) (target_ptr : Option CodePtr)
    (l : List BlockRelocation) (return_to_dispatcher : CodePtr) :
    ((∀ r ∈ l, r.type = BlockRelocationType.Branch ∨
        r.type = BlockRelocationType.MoveToScratch1) →
      LinkBlockLinks entry_point target_ptr l return_to_dispatcher =
        Except.ok (l.map (expectedPatch entry_point target_ptr return_to_dispatcher))) ∧
    ((∃ r ∈ l, ∃ n, r.type = BlockRelocationType.invalidType n) →
      ∃ msg, LinkBlockLinks entry_point target_ptr l return_to_dispatcher =
        Except.error msg) := by
  induction l with
  | nil =>
    constructor
    · intro _; rfl
    · intro h; rcases h with ⟨r, hr, _⟩; cases hr
  | cons r rest ih =>
    constructor
    · intro hval
      have hr := hval r (List.mem_cons_self r rest)
      have hrest := ih.1 (fun x hx => hval x (List.mem_cons_of_mem r hx))
      rcases hr with h1 | h1 <;> cases target_ptr <;>
        simp [LinkBlockLinks, h1, hrest, expectedPatch, List.map_cons]
    · intro hbad
      rcases hbad with ⟨x, hx, n, hxn⟩
      rcases List.mem_cons.mp hx with h1 | h2
      · subst h1
        exact ⟨"Invalid BlockRelocationType", by simp [LinkBlockLinks, hxn]⟩
      · rcases ih.2 ⟨x, h2, n, hxn⟩ with ⟨msg, hmsg⟩
        cases hrt : r.type with
        | Branch =>
          cases target_ptr <;> exact ⟨msg, by simp [LinkBlockLinks, hrt, hmsg]⟩
        | MoveToScratch1 =>
          cases target_ptr <;> exact ⟨msg, by simp [LinkBlockLinks, hrt, hmsg]⟩
        | invalidType n2 =>
          exact ⟨"Invalid BlockRelocationType", by simp [LinkBlockLinks, hrt]⟩

/-- Witness for C6: a concrete valid list is patched per the table, and a
list containing an out-of-range type aborts. -/
theorem linkBlockLinks_policy_witness :
    LinkBlockLinks 1000 (some 2000)
      [{ ptr_offset := 0, type := BlockRelocationType.Branch },
       { ptr_offset := 4, type := BlockRelocationType.MoveToScratch1 }] 4096 =
      Except.ok [PatchWrite.branch 1000 2000, PatchWrite.movToScratch1 1004 2000] ∧
    ∃ msg, LinkBlockLinks 1000 (some 2000)
      [{ ptr_offset := 0, type := BlockRelocationType.invalidType 5 }] 4096 =
      Except.error msg :=
  ⟨(linkBlockLinks_policy 1000 (some 2000)
      [{ ptr_offset := 0, type := BlockRelocationType.Branch },
       { ptr_offset := 4, type := BlockRelocationType.MoveToScratch1 }] 4096).1 (by decide),
   (linkBlockLinks_policy 1000 (some 2000)
      [{ ptr_offset := 0, type := BlockRelocationType.invalidType 5 }] 4096).2
     ⟨{ ptr_offset := 0, type := BlockRelocationType.invalidType 5 }, by simp, 5, rfl⟩⟩

/-! ## Invalidation lemmas -/

theorem invalidateStep_eq (acc : AddressSpaceState × List CacheEvent)
    (d : LocationDescriptor) :
    invalidateStep acc d =
      (invalidateStepState acc.1 d, acc.2 ++ invalidateStepEvents acc.1 d) := by
  rcases acc with ⟨s, evs⟩
  cases hd : alookup s.block_entries d with
  | none => simp [invalidateStep, invalidateStepState, invalidateStepEvents, hd]
  | some p => simp [invalidateStep, invalidateStepState, invalidateStepEvents, hd]

theorem invalidateTraced_acc (descriptors : List LocationDescriptor) :
    ∀ (s : AddressSpaceState) (evs : List CacheEvent),
      descriptors.foldl invalidateStep (s, evs) =
        ((descriptors.foldl invalidateStep (s, [])).1,
         evs ++ (descriptors.foldl invalidateStep (s, [])).2) := by
  induction descriptors with
  | nil => intro s evs; simp
  | cons d rest ih =>
    intro s evs
    simp only [List.foldl_cons, invalidateStep_eq, List.nil_append]
    rw [ih (invalidateStepState s d) (evs ++ invalidateStepEvents s d),
        ih (invalidateStepState s d) (invalidateStepEvents s d)]
    simp [List.append_assoc]

theorem invalidate_cons (s : AddressSpaceState) (d : LocationDescriptor)
    (rest : List LocationDescriptor) :
    s.invalidateBasicBlocks (d :: rest) =
      (invalidateStepState s d).invalidateBasicBlocks rest := by
  simp only [AddressSpaceState.invalidateBasicBlocks, invalidateBasicBlocksTraced,
    List.foldl_cons, invalidateStep_eq, List.nil_append]
  rw [invalidateTraced_acc rest (invalidateStepState s d) (invalidateStepEvents s d)]

theorem invalidateTrace_cons (s : AddressSpaceState) (d : LocationDescriptor)
    (rest : List LocationDescriptor) :
    (invalidateBasicBlocksTraced s (d :: rest)).2 =
      invalidateStepEvents s d ++
        (invalidateBasicBlocksTraced (invalidateStepState s d) rest).2 := by
  simp only [invalidateBasicBlocksTraced, List.foldl_cons, invalidateStep_eq,
    List.nil_append]
  rw [invalidateTraced_acc rest (invalidateStepState s d) (invalidateStepEvents s d)]

theorem relink_block_entries (s : AddressSpaceState) (d : LocationDescriptor)
    (t : Option CodePtr) :
    (s.relinkForDescriptor d t).block_entries = s.block_entries := rfl

theorem invalidateStepState_lookup_ne (s : AddressSpaceState) (d d2 : LocationDescriptor)
    (h : d2 ≠ d) :
    alookup (invalidateStepState s d).block_entries d2 = alookup s.block_entries d2 := by
  cases hd : alookup s.block_entries d with
  | none => simp [invalidateStepState, hd]
  | some p =>
    simp only [invalidateStepState, hd]
    rw [relink_block_entries]
    exact alookup_aerase_ne s.block_entries d2 d h

theorem invalidateStepState_preserves (s : AddressSpaceState) (d : LocationDescriptor) :
    (invalidateStepState s d).reverse_block_entries = s.reverse_block_entries ∧
    (invalidateStepState s d).block_infos = s.block_infos ∧
    (∀ d2, (alookup (invalidateStepState s d).block_references d2).getD [] =
      (alookup s.block_references d2).getD []) := by
  cases hd : alookup s.block_entries d with
  | none => simp [invalidateStepState, hd]
  | some p =>
    simp only [invalidateStepState, hd]
    refine ⟨rfl, rfl, ?_⟩
    intro d2
    simp only [AddressSpaceState.relinkForDescriptor]
    by_cases hrefs : (alookup s.block_references d).isSome = true
    · simp [hrefs]
    · simp only [hrefs, if_neg, Bool.false_eq_true, not_false_iff]
      by_cases hd2 : d = d2
      · subst hd2
        rw [alookup_cons_self]
        rw [Option.not_isSome_iff_eq_none.mp hrefs]
        rfl
      · rw [alookup_cons_ne d2 d [] s.block_references hd2]

/-! ## C3: invalidation removes only the forward mapping -/

/-- C3: `InvalidateBasicBlocks` leaves `reverse_block_entries` and
`block_infos` unchanged, and the contents of `block_references` (the set of
referencing blocks recorded for each descriptor) unchanged as well; those
maps are purged only by `ClearCache`. -/
theorem invalidate_preserves_aux (descriptors : List LocationDescriptor) :
    ∀ s : AddressSpaceState,
      (s.invalidateBasicBlocks descriptors).reverse_block_entries =
        s.reverse_block_entries ∧
      (s.invalidateBasicBlocks descriptors).block_infos = s.block_infos ∧
      (∀ d, (alookup (s.invalidateBasicBlocks descriptors).block_references d).getD [] =
        (alookup s.block_references d).getD []) := by
  induction descriptors with
  | nil => intro s; exact ⟨rfl, rfl, fun _ => rfl⟩
  | cons d rest ih =>
    intro s
    rw [invalidate_cons]
    rcases invalidateStepState_preserves s d with ⟨h1, h2, h3⟩
    rcases ih (invalidateStepState s d) with ⟨g1, g2, g3⟩
    exact ⟨g1.trans h1, g2.trans h2, fun d2 => (g3 d2).trans (h3 d2)⟩

theorem invalidate_removes_only_forward (s : AddressSpaceState)
    (descriptors : List LocationDescriptor) :
    (s.invalidateBasicBlocks descriptors).reverse_block_entries =
      s.reverse_block_entries ∧
    (s.invalidateBasicBlocks descriptors).block_infos = s.block_infos ∧
    (∀ d, (alookup (s.invalidateBasicBlocks descriptors).block_references d).getD [] =
      (alookup s.block_references d).getD []) ∧
    (s.clearCache.reverse_block_entries = [] ∧ s.clearCache.block_infos = [] ∧
      s.clearCache.block_references = []) := by
  rcases invalidate_preserves_aux descriptors s with ⟨h1, h2, h3⟩
  exact ⟨h1, h2, h3, rfl, rfl, rfl⟩

/-! ## C2: unlink strictly before erase -/

theorem invalidate_present_aux (descriptors : List LocationDescriptor) :
    ∀ s : AddressSpaceState, descriptors.Nodup →
      ∀ d ∈ descriptors, ∀ p, alookup s.block_entries d = some p →
        List.Sublist [CacheEvent.relinkEvt d Option.none, CacheEvent.eraseEvt d]
          (invalidateBasicBlocksTraced s descriptors).2 := by
  induction descriptors with
  | nil => intro s _ d hd; cases hd
  | cons a rest ih =>
    intro s hnd d hd p hp
    rw [invalidateTrace_cons]
    rcases List.mem_cons.mp hd with h1 | h2
    · subst h1
      have hev : invalidateStepEvents s d =
          [CacheEvent.relinkEvt d Option.none, CacheEvent.eraseEvt d] := by
        simp [invalidateStepEvents, hp]
      rw [hev]
      exact List.sublist_append_left _ _
    · have hne : d ≠ a := fun hcon => (List.nodup_cons.mp hnd).1 (hcon ▸ h2)
      have hp2 : alookup (invalidateStepState s a).block_entries d = some p := by
        rw [invalidateStepState_lookup_ne s a d hne]; exact hp
      exact (ih (invalidateStepState s a) (List.nodup_cons.mp hnd).2 d h2 p hp2).trans
        (List.sublist_append_right _ _)

theorem invalidate_absent_aux (descriptors : List LocationDescriptor) :
    ∀ (s : AddressSpaceState) (d : LocationDescriptor),
      alookup s.block_entries d = Option.none →
      ∀ e ∈ (invalidateBasicBlocksTraced s descriptors).2, e.descr ≠ d := by
  induction descriptors with
  | nil =>
    intro s d _ e he
    simp [invalidateBasicBlocksTraced] at he
  | cons a rest ih =>
    intro s d hd e he
    rw [invalidateTrace_cons] at he
    rcases List.mem_append.mp he with h1 | h2
    · cases ha : alookup s.block_entries a with
      | none => simp [invalidateStepEvents, ha] at h1
      | some p =>
        have hda : a ≠ d := by
          intro hcon
          rw [hcon] at ha
          rw [ha] at hd
          cases hd
        simp only [invalidateStepEvents, ha, List.mem_cons, List.not_mem_nil,
          or_false] at h1
        rcases h1 with h1 | h1 <;> (rw [h1]; simpa [CacheEvent.descr] using hda)
    · have hd2 : alookup (invalidateStepState s a).block_entries d = Option.none := by
        by_cases had : d = a
        · subst had
          simp [invalidateStepState, hd]
        · rw [invalidateStepState_lookup_ne s a d had]; exact hd
      exact ih (invalidateStepState s a) d hd2 e h2

/-- C2: for every descriptor in the (duplicate-free) set passed to
`InvalidateBasicBlocks` that is present in `block_entries`, the event
`RelinkForDescriptor(D, null)` occurs strictly before the erasure of D from
`block_entries` (the two-element trace is a sublist of the run's trace, in
that order); descriptors not present produce no relink or erase event at
all (they are skipped without error). -/
theorem invalidate_unlinks_before_erase (s : AddressSpaceState)
    (descriptors : List LocationDescriptor) (hnd : descriptors.Nodup)
    (d : LocationDescriptor) (hd : d ∈ descriptors) :
    (∀ p, s.get d = some p →
      List.Sublist [CacheEvent.relinkEvt d Option.none, CacheEvent.eraseEvt d]
        (invalidateBasicBlocksTraced s descriptors).2) ∧
    (s.get d = Option.none →
      ∀ e ∈ (invalidateBasicBlocksTraced s descriptors).2, e.descr ≠ d) :=
  ⟨fun p hp => invalidate_present_aux descriptors s hnd d hd p hp,
   fun h e he => invalidate_absent_aux descriptors s d h e he⟩

/-- Witness for C2 on the concrete `sampleState`: invalidating the resident
descriptor 7 relinks it to the dispatcher strictly before erasing it. -/
theorem invalidate_unlinks_before_erase_witness :
    List.Sublist [CacheEvent.relinkEvt 7 Option.none, CacheEvent.eraseEvt 7]
      (invalidateBasicBlocksTraced sampleState [7]).2 :=
  (invalidate_unlinks_before_erase sampleState [7] (by simp) 7 (by simp)).1 100 rfl

/-! ## C1: fastmem fault localisation -/

/-- C1: for an emitted block with entry point `entry_point` whose
`fastmem_patch_info` records `offset`, `FastmemCallback(entry_point +
offset)` returns the recorded fake call; when the entry's `recompile` flag
is set, the returned state is the one obtained by first
`MarkDoNotFastmem(marker)` and then `InvalidateBasicBlocks` on the
singleton set of the marker's descriptor, and otherwise the state is
untouched. Every host PC that fails to resolve (no entry point at or below
it, no block info for the resolved entry point, or no patch entry at the
offset) takes the fatal path naming that host PC. The hypotheses are the
`std::map` ordering invariant, membership of the block in the reverse map,
and that no other recorded entry point lies in `(entry_point, entry_point +
offset]`. -/
theorem fastmemCallback_returns_recorded (s : AddressSpaceState)
    (entry_point offset : Nat) (loc : LocationDescriptor)
    (block_info : EmittedBlockInfo) (patch_entry : FastmemPatchInfoEntry)
    (hs : s.reverse_block_entries.Pairwise (fun a b => a.1 < b.1))
    (hmem : (entry_point, loc) ∈ s.reverse_block_entries)
    (hmax : ∀ y ∈ s.reverse_block_entries, y.1 ≤ entry_point + offset → y.1 ≤ entry_point)
    (hbi : alookup s.block_infos entry_point = some block_info)
    (hpe : alookup block_info.fastmem_patch_info offset = some patch_entry) :
    (s.fastmemCallback (entry_point + offset) =
      FastmemCallbackResult.ok patch_entry.fc
        (if patch_entry.recompile then
          (s.markDoNotFastmem patch_entry.marker).invalidateBasicBlocks
            [patch_entry.marker.1]
        else s)) ∧
    (∀ host_pc,
      (s.reverseGetEntryPoint host_pc = Option.none ∨
       (∃ e, s.reverseGetEntryPoint host_pc = some e ∧
          alookup s.block_infos e = Option.none) ∨
       (∃ e bi, s.reverseGetEntryPoint host_pc = some e ∧
          alookup s.block_infos e = some bi ∧
          alookup bi.fastmem_patch_info (host_pc - e) = Option.none)) →
      s.fastmemCallback host_pc = FastmemCallbackResult.fatalSegfault host_pc) := by
  constructor
  · have hrev : s.reverseGetEntryPoint (entry_point + offset) = some entry_point := by
      have h := mapLastLE_eq_of s.reverse_block_entries (entry_point + offset)
        (entry_point, loc) hs hmem (Nat.le_add_right _ _) hmax
      simp [AddressSpaceState.reverseGetEntryPoint, h]
    simp only [AddressSpaceState.fastmemCallback, hrev, hbi, Nat.add_sub_cancel_left, hpe]
    cases hrec : patch_entry.recompile <;> simp [hrec]
  · intro host_pc h
    rcases h with h0 | ⟨e, he, hbe⟩ | ⟨e, bi, he, hbe, hpn⟩
    · simp only [AddressSpaceState.fastmemCallback, h0]
    · simp only [AddressSpaceState.fastmemCallback, he, hbe]
    · simp only [AddressSpaceState.fastmemCallback, he, hbe, hpn]

/-- Witness for C1 on the concrete `sampleState`: the patch site at
100 + 8 returns `sampleEntry.fc` (with the recompile bookkeeping applied),
and host PC 50, below every entry point, takes the fatal path. -/
theorem fastmemCallback_returns_recorded_witness :
    sampleState.fastmemCallback 108 =
      FastmemCallbackResult.ok sampleEntry.fc
        (if sampleEntry.recompile then
          (sampleState.markDoNotFastmem sampleEntry.marker).invalidateBasicBlocks
            [sampleEntry.marker.1]
        else sampleState) ∧
    sampleState.fastmemCallback 50 = FastmemCallbackResult.fatalSegfault 50 :=
  ⟨(fastmemCallback_returns_recorded sampleState 100 8 7 sampleInfo sampleEntry
      (by simp [sampleState]) (by simp [sampleState]) (by decide) rfl rfl).1,
   (fastmemCallback_returns_recorded sampleState 100 8 7 sampleInfo sampleEntry
      (by simp [sampleState]) (by simp [sampleState]) (by decide) rfl rfl).2 50
     (Or.inl rfl)⟩

/-! ## C8: coprocessor exception path -/

/-- C8: for every one of the seven coprocessor IR opcodes, when the
configured coprocessor at the decoded index is absent or its compile method
returns the `None` action, the emitter produces exactly the
`EmitCoprocessorException` sequence: a call to the prelude's
`ExceptionRaised` helper carrying `InvalidCoprocessorInstruction` and the
current guest PC and, when the instruction produces a value, a definition
of its result as the designated scratch register `X0`. -/
theorem coproc_exception_path (op : CoprocOpcode) (ctx : CoprocCtx) (inst : CoprocInst) :
    (ctx.coprocessors (coprocInfoAt inst.coprocInfo 0) = Option.none →
      emitCoproc op ctx inst = emitCoprocessorException inst) ∧
    (∀ coproc, ctx.coprocessors (coprocInfoAt inst.coprocInfo 0) = some coproc →
      coprocActionIsNone op coproc inst.coprocInfo →
      emitCoproc op ctx inst = emitCoprocessorException inst) ∧
    (emitCoprocessorException inst =
      [EmitEvent.prepareForCall,
       EmitEvent.movW (AReg.gpr 1) (a32PC inst.locDesc),
       EmitEvent.movW (AReg.gpr 2)
         (A32Exception.toCode A32Exception.InvalidCoprocessorInstruction),
       EmitEvent.relocCall LinkTarget.ExceptionRaised]
      ++ (if inst.retNonVoid then [EmitEvent.defineAsRegister (AReg.gpr 0)] else [])) := by
  refine ⟨?_, ?_, rfl⟩
  · intro h
    cases op <;>
      simp [emitCoproc, emitA32CoprocInternalOperation, emitA32CoprocSendOneWord,
        emitA32CoprocSendTwoWords, emitA32CoprocGetOneWord, emitA32CoprocGetTwoWords,
        emitA32CoprocLoadWords, emitA32CoprocStoreWords, h]
  · intro coproc hc hn
    cases op <;>
      (simp only [coprocActionIsNone] at hn;
       try simp at hn
       
       simp [emitCoproc, emitA32CoprocInternalOperation, emitA32CoprocSendOneWord,
         emitA32CoprocSendTwoWords, emitA32CoprocGetOneWord, emitA32CoprocGetTwoWords,
         emitA32CoprocLoadWords, emitA32CoprocStoreWords, hc, hn])

/-- Witness for C8: with no coprocessor configured, a value-producing
`A32CoprocGetOneWord` lowers to the exception sequence. -/
theorem coproc_exception_path_witness :
    emitCoproc CoprocOpcode.getOneWord ctxAbsent sampleCoprocInst =
      emitCoprocessorException sampleCoprocInst :=
  (coproc_exception_path CoprocOpcode.getOneWord ctxAbsent sampleCoprocInst).1 rfl

/-! ## C9: two-word coprocessor Get -/

/-- C9 counterexample: on the `WordPair` path the emitted sequence is not
"two 32-bit loads" — it is one 64-bit load (`LDR Xvalue, [Xscratch0]`)
followed by one 32-bit load (`LDR Wscratch1, [Xscratch1]`) and the bitfield
insertion, as the concrete emitted sequence shows (exactly one 32-bit load
and exactly one 64-bit load). -/
theorem getTwoWords_not_two_32bit_loads :
    emitA32CoprocGetTwoWords ctxC9 sampleCoprocInst =
      [EmitEvent.writeX (AReg.alloc 0),
       EmitEvent.movX AReg.scratch0 4096,
       EmitEvent.movX AReg.scratch1 8192,
       EmitEvent.ldrX (AReg.alloc 0) AReg.scratch0,
       EmitEvent.ldrW AReg.scratch1 AReg.scratch1,
       EmitEvent.bfi (AReg.alloc 0) AReg.scratch1 32 32] ∧
    (emitA32CoprocGetTwoWords ctxC9 sampleCoprocInst).countP
      (fun e => e.isLoad32) = 1 ∧
    (emitA32CoprocGetTwoWords ctxC9 sampleCoprocInst).countP
      (fun e => e.isLoad64) = 1 := by
  refine ⟨rfl, rfl, rfl⟩

theorem load32_lt (m : Nat → Nat) (a : Nat) : load32 m a < 2 ^ 32 := by
  have h0 : byteAt m a < 256 := Nat.mod_lt _ (by norm_num)
  have h1 : byteAt m (a + 1) < 256 := Nat.mod_lt _ (by norm_num)
  have h2 : byteAt m (a + 2) < 256 := Nat.mod_lt _ (by norm_num)
  have h3 : byteAt m (a + 3) < 256 := Nat.mod_lt _ (by norm_num)
  have e1 : (256 : Nat) ^ 2 = 65536 := by norm_num
  have e2 : (256 : Nat) ^ 3 = 16777216 := by norm_num
  have e3 : (2 : Nat) ^ 32 = 4294967296 := by norm_num
  simp only [load32, e1, e2, e3]
  omega

theorem load64_lt (m : Nat → Nat) (a : Nat) : load64 m a < 2 ^ 64 := by
  have h0 := load32_lt m a
  have h1 := load32_lt m (a + 4)
  have e3 : (2 : Nat) ^ 32 = 4294967296 := by norm_num
  have e4 : (2 : Nat) ^ 64 = 18446744073709551616 := by norm_num
  simp only [load64, e3, e4] at *
  omega

theorem load64_mod32 (m : Nat → Nat) (a : Nat) : load64 m a % 2 ^ 32 = load32 m a := by
  simp only [load64]
  rw [Nat.add_mul_mod_self_left]
  exact Nat.mod_eq_of_lt (load32_lt m a)

theorem setReg_same (rf : AReg → Nat) (r : AReg) (v : Nat) : setReg rf r v r = v := by
  simp [setReg]

theorem setReg_other (rf : AReg → Nat) (r : AReg) (v : Nat) (r2 : AReg) (h : r2 ≠ r) :
    setReg rf r v r2 = rf r2 := by
  simp [setReg, h]

theorem exec_getTwoWords_seq (m : Nat → Nat) (rf : AReg → Nat) (w : AReg) (p0 p1 : Nat)
    (hs1 : w ≠ AReg.scratch1) :
    execEvents m rf
      [EmitEvent.writeX w, EmitEvent.movX AReg.scratch0 p0, EmitEvent.movX AReg.scratch1 p1,
       EmitEvent.ldrX w AReg.scratch0, EmitEvent.ldrW AReg.scratch1 AReg.scratch1,
       EmitEvent.bfi w AReg.scratch1 32 32] w
      = bfiVal (load64 m (p0 % 2 ^ 64)) (load32 m (p1 % 2 ^ 64)) 32 32 := by
  simp [execEvents, stepEvent, setReg, hs1, Ne.symm hs1]

/-- C9 (amended): on a `WordPair(&cellA, &cellB)` action the emitted code
leaves the 64-bit result register with low 32 bits equal to the first cell
and high 32 bits equal to the second cell, obtained by one 64-bit load of
the first cell (whose upper half is subsequently overwritten) combined with
one 32-bit load of the second cell via the bitfield insertion
`BFI Xvalue, Xscratch1, 32, 32`. -/
theorem getTwoWords_wordPair_value (ctx : CoprocCtx) (inst : CoprocInst)
    (coproc : Coprocessor) (ptr0 ptr1 : Nat) (m : Nat → Nat) (rf : AReg → Nat)
    (hc : ctx.coprocessors (coprocInfoAt inst.coprocInfo 0) = some coproc)
    (ha : coproc.compileGetTwoWords (coprocInfoAt inst.coprocInfo 1 != 0)
        (coprocInfoAt inst.coprocInfo 2) (coprocInfoAt inst.coprocInfo 3)
        = CoprocTwoWordsAction.wordPair ptr0 ptr1)
    (hp0 : ptr0 < 2 ^ 64) (hp1 : ptr1 < 2 ^ 64)
    (hs1 : ctx.writeXReg ≠ AReg.scratch1) :
    execEvents m rf (emitA32CoprocGetTwoWords ctx inst) ctx.writeXReg =
      load32 m ptr0 + 2 ^ 32 * load32 m ptr1 ∧
    execEvents m rf (emitA32CoprocGetTwoWords ctx inst) ctx.writeXReg % 2 ^ 32 =
      load32 m ptr0 ∧
    execEvents m rf (emitA32CoprocGetTwoWords ctx inst) ctx.writeXReg / 2 ^ 32 =
      load32 m ptr1 := by
  have hemit : emitA32CoprocGetTwoWords ctx inst =
      [EmitEvent.writeX ctx.writeXReg,
       EmitEvent.movX AReg.scratch0 ptr0,
       EmitEvent.movX AReg.scratch1 ptr1,
       EmitEvent.ldrX ctx.writeXReg AReg.scratch0,
       EmitEvent.ldrW AReg.scratch1 AReg.scratch1,
       EmitEvent.bfi ctx.writeXReg AReg.scratch1 32 32] := by
    simp [emitA32CoprocGetTwoWords, hc, ha]
  have hseq := exec_getTwoWords_seq m rf ctx.writeXReg ptr0 ptr1 hs1
  rw [Nat.mod_eq_of_lt hp0, Nat.mod_eq_of_lt hp1] at hseq
  rw [hemit, hseq]
  have hdiv : load64 m ptr0 / 2 ^ (32 + 32) = 0 := by
    apply Nat.div_eq_of_lt
    have := load64_lt m ptr0
    norm_num at this ⊢
    omega
  have hmain : bfiVal (load64 m ptr0) (load32 m ptr1) 32 32 =
      load32 m ptr0 + 2 ^ 32 * load32 m ptr1 := by
    simp only [bfiVal, hdiv, Nat.zero_mul, Nat.add_zero, load64_mod32,
      Nat.mod_eq_of_lt (load32_lt m ptr1)]
    ring
  refine ⟨hmain, ?_, ?_⟩
  · rw [hmain, Nat.add_mul_mod_self_left]
    exact Nat.mod_eq_of_lt (load32_lt m ptr0)
  · rw [hmain, Nat.add_mul_div_left _ _ (by norm_num : 0 < 2 ^ 32),
      Nat.div_eq_of_lt (load32_lt m ptr0), Nat.zero_add]

/-- Witness for the amended C9: with cellA = 0xAAAAAAAA at 4096 and cellB =
0xBBBBBBBB at 8192, the emitted code computes 0xBBBBBBBBAAAAAAAA. -/
theorem getTwoWords_wordPair_value_witness :
    execEvents memC9 (fun _ => 0) (emitA32CoprocGetTwoWords ctxC9 sampleCoprocInst)
      (AReg.alloc 0) = 0xBBBBBBBBAAAAAAAA :=
  ((getTwoWords_wordPair_value ctxC9 sampleCoprocInst coprocC9 4096 8192 memC9
    (fun _ => 0) rfl rfl (by norm_num) (by norm_num) (by decide)).1).trans
    (by decide)

/-! ## C5: GetOrEmit -/

theorem link_block_entries (s : AddressSpaceState) (block_info : EmittedBlockInfo) :
    (s.link block_info).block_entries = s.block_entries := rfl

theorem emit_ok (s : AddressSpaceState) (env : ExternalEnv) (b : IRBlock)
    (bi : EmittedBlockInfo) (s2 : AddressSpaceState)
    (h : s.emit env b = Except.ok (bi, s2)) :
    s2.block_entries = (b.location, bi.entry_point) :: s.block_entries ∧
    alookup s.block_entries b.location = Option.none := by
  simp only [AddressSpaceState.emit] at h
  split at h
  · cases h
  · split at h
    · cases h
    · split at h
      · cases h
      · rename_i h1 h2 h3
        injection h with h
        injection h with hbi hs
        subst hbi
        subst hs
        rw [relink_block_entries, link_block_entries]
        exact ⟨rfl, Option.not_isSome_iff_eq_none.mp h1⟩

theorem emit_preserves_lookup (s : AddressSpaceState) (env : ExternalEnv) (b : IRBlock)
    (bi : EmittedBlockInfo) (s2 : AddressSpaceState)
    (h : s.emit env b = Except.ok (bi, s2)) (d : LocationDescriptor) (p : CodePtr)
    (hd : alookup s.block_entries d = some p) : alookup s2.block_entries d = some p := by
  rcases emit_ok s env b bi s2 h with ⟨he, hnone⟩
  rw [he]
  have hne : b.location ≠ d := by
    intro hcon
    rw [hcon] at hnone
    rw [hnone] at hd
    cases hd
  rw [alookup_cons_ne d b.location bi.entry_point s.block_entries hne]
  exact hd

theorem emit_defines (s : AddressSpaceState) (env : ExternalEnv) (b : IRBlock)
    (bi : EmittedBlockInfo) (s2 : AddressSpaceState)
    (h : s.emit env b = Except.ok (bi, s2)) :
    alookup s2.block_entries b.location = some bi.entry_point := by
  rcases emit_ok s env b bi s2 h with ⟨he, _⟩
  rw [he]
  exact alookup_cons_self b.location bi.entry_point s.block_entries

theorem doBlock_ok (env : ExternalEnv) (s : AddressSpaceState)
    (next : List LocationDescriptor) (d : LocationDescriptor) (r : CodePtr)
    (s2 : AddressSpaceState) (next2 : List LocationDescriptor)
    (h : doBlock env s next d = Except.ok (r, s2, next2)) :
    ∃ bi, s.emit env (env.genIR d) = Except.ok (bi, s2) ∧ r = bi.entry_point := by
  simp only [doBlock] at h
  split at h
  · cases h
  · split at h
    · cases h
    · rename_i app happ bi s3 hemit
      injection h with h
      injection h with h1 h
      injection h with h2 h3
      subst h1
      subst h2
      exact ⟨bi, hemit, rfl⟩

theorem drainNext_preserves (env : ExternalEnv) :
    ∀ (fuel : Nat) (s : AddressSpaceState) (next : List LocationDescriptor)
      (s2 : AddressSpaceState), drainNext env fuel s next = Except.ok s2 →
      ∀ (d : LocationDescriptor) (p : CodePtr),
        alookup s.block_entries d = some p → alookup s2.block_entries d = some p := by
  intro fuel
  induction fuel with
  | zero =>
    intro s next s2 h d p hd
    cases next with
    | nil =>
      simp only [drainNext] at h
      injection h with h
      rw [← h]
      exact hd
    | cons n rest =>
      simp only [drainNext] at h
      split at h
      · injection h with h
        rw [← h]
        exact hd
      · cases h
  | succ fuel ih =>
    intro s next s2 h d p hd
    cases next with
    | nil =>
      simp only [drainNext] at h
      injection h with h
      rw [← h]
      exact hd
    | cons n rest =>
      simp only [drainNext] at h
      split at h
      · injection h with h
        rw [← h]
        exact hd
      · split at h
        · exact ih s rest s2 h d p hd
        · split at h
          · cases h
          · rename_i hfull hget r2 s3 next3 hdo
            rcases doBlock_ok env s rest n r2 s3 next3 hdo with ⟨bi, hemit, _⟩
            exact ih s3 next3 s2 h d p
              (emit_preserves_lookup s env (env.genIR n) bi s3 hemit d p hd)

theorem compile_ok_get (s : AddressSpaceState) (env : ExternalEnv) (fuel : Nat)
    (d : LocationDescriptor) (p : CodePtr) (s2 : AddressSpaceState)
    (hloc : (env.genIR d).location = d)
    (h : s.compile env fuel d = Except.ok (p, s2)) :
    alookup s2.block_entries d = some p := by
  simp only [AddressSpaceState.compile] at h
  split at h
  · cases h
  · rename_i r s1 next1 hdo
    rcases doBlock_ok env s [] d r s1 next1 hdo with ⟨bi, hemit, hr⟩
    have hbase : alookup s1.block_entries d = some r := by
      rw [hr]
      have hdef := emit_defines s env (env.genIR d) bi s1 hemit
      rw [hloc] at hdef
      exact hdef
    split at h
    · cases hdr : drainNext env fuel s1 next1 with
      | error e =>
        rw [hdr] at h
        cases h
      | ok s3 =>
        rw [hdr] at h
        injection h with h
        injection h with h1 h2
        subst h1
        subst h2
        exact drainNext_preserves env fuel s1 next1 _ hdr d _ hbase
    · injection h with h
      injection h with h1 h2
      subst h1
      subst h2
      exact hbase

/-- C5: `GetOrEmit(L)` returns the cached entry point when `Get(L)` is
non-null, leaving the state unchanged; otherwise it performs `ClearCache`
first exactly when `IsNearlyFull` and returns `Compile(L)`; and (under the
IR producer's contract that `GenerateIR(L)` is a block for L) two
successful `GetOrEmit(L)` calls with no intervening invalidation return the
same `CodePtr`. -/
theorem getOrEmit_spec (s : AddressSpaceState) (env : ExternalEnv) (fuel : Nat)
    (descriptor : LocationDescriptor) :
    (∀ p, s.get descriptor = some p →
      s.getOrEmit env fuel descriptor = Except.ok (p, s)) ∧
    (s.get descriptor = Option.none → s.isNearlyFull = true →
      s.getOrEmit env fuel descriptor = s.clearCache.compile env fuel descriptor) ∧
    (s.get descriptor = Option.none → s.isNearlyFull = false →
      s.getOrEmit env fuel descriptor = s.compile env fuel descriptor) ∧
    ((∀ d, (env.genIR d).location = d) →
      ∀ p s2, s.getOrEmit env fuel descriptor = Except.ok (p, s2) →
        ∀ fuel2, s2.getOrEmit env fuel2 descriptor = Except.ok (p, s2)) := by
  refine ⟨?_, ?_, ?_, ?_⟩
  · intro p hp
    simp [AddressSpaceState.getOrEmit, hp]
  · intro hnone hfull
    simp [AddressSpaceState.getOrEmit, hnone, hfull]
  · intro hnone hfull
    simp [AddressSpaceState.getOrEmit, hnone, hfull]
  · intro hloc p s2 h fuel2
    have hget : s2.get descriptor = some p := by
      simp only [AddressSpaceState.getOrEmit] at h
      split at h
      · rename_i q hq
        injection h with h
        injection h with h1 h2
        subst h1
        subst h2
        exact hq
      · exact compile_ok_get _ env fuel descriptor p s2 (hloc descriptor) h
    simp [AddressSpaceState.getOrEmit, hget]

/-- Witness for C5: emitting descriptor 9 in the empty cache `sW` under
`envW` yields entry point 64 and state `sW1`; a second `GetOrEmit` returns
the same pointer and state. -/
theorem getOrEmit_spec_witness :
    sW.getOrEmit envW 5 9 = Except.ok (64, sW1) ∧
    sW1.getOrEmit envW 0 9 = Except.ok (64, sW1) :=
  ⟨rfl, (getOrEmit_spec sW envW 5 9).2.2.2 (fun _ => rfl) 64 sW1 rfl 0⟩

end Dynarmic
